import Mathlib

/-!
Verification of the interactive transform engine of the `vc-image` Preview
component (`src/components/vc-image/src/Preview.tsx`).

The component state is a record of plain values: the scale factor, the
accumulated rotation in degrees, the flip signs, the pan position, the last
tracked mouse position, and the wheel-zoom memory (`hasWheelZoomed`,
`lastZoomPosition`).  Numbers are modelled as rationals, rotation as an
integer.  Each event handler of the component becomes a pure function from
state to state; the modal/window environment (scale bounds, viewport size,
the optional mounted image geometry, visibility) is passed explicitly.
-/

namespace VcImagePreview

/-- A 2D point / offset, as used for `position`, `mousePosition` and
`lastZoomPosition` in the component. -/
@[ext] structure Pos where
  x : ℚ
  y : ℚ
deriving DecidableEq

/-- The flip signs (`flip.x`, `flip.y` in the source, each `1` or `-1`). -/
@[ext] structure Flip where
  x : ℤ
  y : ℤ
deriving DecidableEq

/-- Geometry of the mounted image element, read from `imgRef.value`:
`offsetWidth`, `offsetHeight`, `offsetLeft`, `offsetTop`. -/
@[ext] structure Geometry where
  offsetWidth : ℚ
  offsetHeight : ℚ
  offsetLeft : ℚ
  offsetTop : ℚ
deriving DecidableEq

/-- The environment a handler runs in: the `minScale`/`maxScale` props
(defaults 1 and 50), the window size, the (optionally mounted) image
element, and the dialog visibility. -/
@[ext] structure Env where
  minScale : ℚ
  maxScale : ℚ
  innerWidth : ℚ
  innerHeight : ℚ
  imgElement : Option Geometry
  visible : Bool
deriving DecidableEq

/-- `originPositionRef` of the source: drag-session bookkeeping. -/
@[ext] structure OriginPositionRef where
  originX : ℚ
  originY : ℚ
  deltaX : ℚ
  deltaY : ℚ
deriving DecidableEq

/-- The mutable state owned by the `Preview` component: `scale`, `rotate`,
`flip`, `position` (the frame-batched position store, modelled by its
committed value), `mousePosition`, the wheel-zoom memory and the drag
state. -/
@[ext] structure PreviewState where
  scale : ℚ
  rotate : ℤ
  flip : Flip
  position : Pos
  mousePosition : Pos
  hasWheelZoomed : Bool
  lastZoomPosition : Pos
  isMoving : Bool
  originPosition : OriginPositionRef
deriving DecidableEq

/-- `initialPosition = { x: 0, y: 0 }`. -/
def initialPosition : Pos := ⟨0, 0⟩

/-- The component state right after setup: `scale = 1`, `rotate = 0`,
`flip = {1, 1}`, `position = initialPosition`, cleared wheel memory, no
drag in progress. -/
def initialState : PreviewState where
  scale := 1
  rotate := 0
  flip := ⟨1, 1⟩
  position := initialPosition
  mousePosition := ⟨0, 0⟩
  hasWheelZoomed := false
  lastZoomPosition := ⟨0, 0⟩
  isMoving := false
  originPosition := ⟨0, 0, 0, 0⟩

/-- The clamped scale computed at the top of `dispatchZoomChange`:
`newScale = scale * ratio`, pulled back to `maxScale` or `minScale` when it
overshoots. -/
def newScaleOf (env : Env) (oldScale ratio : ℚ) : ℚ :=
  if oldScale * ratio > env.maxScale then env.maxScale
  else if oldScale * ratio < env.minScale then env.minScale
  else oldScale * ratio

/-- The effective ratio recomputed alongside the clamp in
`dispatchZoomChange`: `newRatio` stays `ratio` unless the scale was
clamped, in which case it becomes `bound / scale`. -/
def newRatioOf (env : Env) (oldScale ratio : ℚ) : ℚ :=
  if oldScale * ratio > env.maxScale then env.maxScale / oldScale
  else if oldScale * ratio < env.minScale then env.minScale / oldScale
  else ratio

/-- The body of `dispatchZoomChange` once the image element is known to be
mounted: clamp the new scale, compute the zoom-toward-point position from
the effective ratio, snap to the origin (and, for non-wheel zooms, clear
the wheel memory) when shrinking back to scale 1 with the image fitting
the window, and commit scale and position. -/
def zoomBody (env : Env) (s : PreviewState) (ratio : ℚ) (wheel : Bool)
    (centerX centerY : Option ℚ) (img : Geometry) : PreviewState :=
  let newScale := newScaleOf env s.scale ratio
  let newRatio := newRatioOf env s.scale ratio
  let mergedCenterX := centerX.getD (env.innerWidth / 2)
  let mergedCenterY := centerY.getD (env.innerHeight / 2)
  let diffRatio := newRatio - 1
  let diffImgX := diffRatio * img.offsetWidth * (1 / 2)
  let diffImgY := diffRatio * img.offsetHeight * (1 / 2)
  let diffOffsetLeft := diffRatio * (mergedCenterX - s.position.x - img.offsetLeft)
  let diffOffsetTop := diffRatio * (mergedCenterY - s.position.y - img.offsetTop)
  let newX := s.position.x - (diffOffsetLeft - diffImgX)
  let newY := s.position.y - (diffOffsetTop - diffImgY)
  if ratio < 1 ∧ newScale = 1 ∧ img.offsetWidth * newScale ≤ env.innerWidth ∧
      img.offsetHeight * newScale ≤ env.innerHeight then
    { s with
      scale := newScale
      position := ⟨0, 0⟩
      hasWheelZoomed := if wheel then s.hasWheelZoomed else false
      lastZoomPosition := if wheel then s.lastZoomPosition else ⟨0, 0⟩ }
  else
    { s with scale := newScale, position := ⟨newX, newY⟩ }

/-- `dispatchZoomChange(ratio, isWheel, centerX?, centerY?)`: returns early
when no image element is mounted, otherwise runs `zoomBody` on the mounted
geometry. -/
def dispatchZoomChange (env : Env) (s : PreviewState) (ratio : ℚ)
    (wheel : Bool) (centerX centerY : Option ℚ) : PreviewState :=
  match env.imgElement with
  | none => s
  | some img => zoomBody env s ratio wheel centerX centerY img

/-- `onZoomIn(isWheel)`: no-op at `maxScale`; wheel zooms by 1.5 toward
the mouse position and records it in the wheel memory; button zooms by 2
toward the remembered wheel focal if any, else toward the window center. -/
def onZoomIn (env : Env) (s : PreviewState) (wheel : Bool) : PreviewState :=
  if s.scale ≥ env.maxScale then s
  else if wheel then
    let s1 := dispatchZoomChange env s (3 / 2) true
      (some s.mousePosition.x) (some s.mousePosition.y)
    { s1 with
      lastZoomPosition := ⟨s1.mousePosition.x, s1.mousePosition.y⟩
      hasWheelZoomed := true }
  else if s.hasWheelZoomed then
    dispatchZoomChange env s 2 false
      (some s.lastZoomPosition.x) (some s.lastZoomPosition.y)
  else
    dispatchZoomChange env s 2 false none none

/-- `onZoomOut(isWheel)`: at (or below) `minScale` it only clears the
wheel memory and returns; otherwise wheel zooms by 0.667 toward the mouse
position (recording it), button zooms by 0.5 toward the remembered wheel
focal if any, else toward the window center. -/
def onZoomOut (env : Env) (s : PreviewState) (wheel : Bool) : PreviewState :=
  if s.scale ≤ env.minScale then
    { s with hasWheelZoomed := false, lastZoomPosition := ⟨0, 0⟩ }
  else if wheel then
    let s1 := dispatchZoomChange env s (667 / 1000) true
      (some s.mousePosition.x) (some s.mousePosition.y)
    { s1 with
      lastZoomPosition := ⟨s1.mousePosition.x, s1.mousePosition.y⟩
      hasWheelZoomed := true }
  else if s.hasWheelZoomed then
    dispatchZoomChange env s (1 / 2) false
      (some s.lastZoomPosition.x) (some s.lastZoomPosition.y)
  else
    dispatchZoomChange env s (1 / 2) false none none

/-- `onRotateRight()`: `rotate.value += 90`. -/
def onRotateRight (s : PreviewState) : PreviewState :=
  { s with rotate := s.rotate + 90 }

/-- `onRotateLeft()`: `rotate.value -= 90`. -/
def onRotateLeft (s : PreviewState) : PreviewState :=
  { s with rotate := s.rotate - 90 }

/-- `onFlipX()`: `flip.x = -flip.x`. -/
def onFlipX (s : PreviewState) : PreviewState :=
  { s with flip := { s.flip with x := -s.flip.x } }

/-- `onFlipY()`: `flip.y = -flip.y`. -/
def onFlipY (s : PreviewState) : PreviewState :=
  { s with flip := { s.flip with y := -s.flip.y } }

/-- `onDoubleClick()`: when visible, reset scale to 1 (if it differs) and
position to `initialPosition` (if it differs); otherwise do nothing. -/
def onDoubleClick (env : Env) (s : PreviewState) : PreviewState :=
  if env.visible then
    let s1 := if s.scale ≠ 1 then { s with scale := 1 } else s
    if s1.position.x ≠ initialPosition.x ∨ s1.position.y ≠ initialPosition.y then
      { s1 with position := initialPosition }
    else s1
  else s

/-- `onAfterClose()`: reset scale, rotation, flip and position to their
defaults and clear the wheel-zoom memory. -/
def onAfterClose (s : PreviewState) : PreviewState :=
  { s with
    scale := 1
    rotate := 0
    flip := ⟨1, 1⟩
    position := initialPosition
    hasWheelZoomed := false
    lastZoomPosition := ⟨0, 0⟩ }

/-- `updateMousePosition(e)`: record the pointer's page coordinates. -/
def updateMousePosition (s : PreviewState) (pageX pageY : ℚ) : PreviewState :=
  { s with mousePosition := ⟨pageX, pageY⟩ }

/-- `onMouseDown(event)`: main button only; capture the drag deltas and
origin and start moving. -/
def onMouseDown (s : PreviewState) (button : ℕ) (pageX pageY : ℚ) : PreviewState :=
  if button ≠ 0 then s
  else
    { s with
      originPosition :=
        ⟨s.position.x, s.position.y, pageX - s.position.x, pageY - s.position.y⟩
      isMoving := true }

/-- `onMouseMove(event)`: always track the mouse position; while visible
and dragging, pan to `page - delta`. -/
def onMouseMove (env : Env) (s : PreviewState) (pageX pageY : ℚ) : PreviewState :=
  let s1 := updateMousePosition s pageX pageY
  if env.visible && s1.isMoving then
    { s1 with
      position := ⟨pageX - s1.originPosition.deltaX, pageY - s1.originPosition.deltaY⟩ }
  else s1

/-- `onMouseUp()`: while visible and dragging, stop the drag and, when the
boundary corrector (`getFixScaleEleTransPosition`, code outside this
slice) returns a position, commit it.  The corrector's possible return
value is abstracted as the `fixState` argument, so every behaviour of the
real corrector is covered. -/
def onMouseUp (env : Env) (s : PreviewState) (fixState : Option Pos) : PreviewState :=
  if env.visible && s.isMoving then
    let s1 := { s with isMoving := false }
    match fixState with
    | some p => { s1 with position := p }
    | none => s1
  else s

/-- `KeyCode.LEFT`. -/
def KeyCodeLEFT : ℕ := 37

/-- `KeyCode.RIGHT`. -/
def KeyCodeRIGHT : ℕ := 39

/-- The group context consumed by the component: the ordered key list of
the `previewUrls` map and the current key.  Map keys are pairwise
distinct; keys are modelled as naturals. -/
@[ext] structure GroupState where
  keys : List ℕ
  current : ℕ
deriving DecidableEq

/-- `previewGroupCount`: the size of the `previewUrls` map. -/
def previewGroupCount (g : GroupState) : ℤ := g.keys.length

/-- JavaScript `Array.prototype.indexOf`: first index of `a`, or `-1`
when `a` does not occur. -/
def jsIndexOf (a : ℕ) : List ℕ → ℤ
  | [] => -1
  | b :: l =>
    if b = a then 0
    else
      let r := jsIndexOf a l
      if r = -1 then -1 else r + 1

/-- `currentPreviewIndex`: `previewUrlsKeys.indexOf(current)`, which is
`-1` when the current key is absent. -/
def currentPreviewIndex (g : GroupState) : ℤ :=
  jsIndexOf g.current g.keys

/-- `showLeftOrRightSwitches`: preview group with more than one item. -/
def showLeftOrRightSwitches (isGroup : Bool) (g : GroupState) : Bool :=
  isGroup && decide (1 < previewGroupCount g)

/-- `onSwitchLeft`: step to the previous key when `currentPreviewIndex > 0`. -/
def onSwitchLeft (g : GroupState) : GroupState :=
  if 0 < currentPreviewIndex g then
    { g with current := g.keys.getD (currentPreviewIndex g - 1).toNat 0 }
  else g

/-- `onSwitchRight`: step to the next key when
`currentPreviewIndex < previewGroupCount - 1`. -/
def onSwitchRight (g : GroupState) : GroupState :=
  if currentPreviewIndex g < previewGroupCount g - 1 then
    { g with current := g.keys.getD (currentPreviewIndex g + 1).toNat 0 }
  else g

/-- `onKeyDown(event)`: ignored unless the preview is visible and the
left/right switches are meaningful; left/right arrows then move the
current index within bounds, all other keys do nothing. -/
def onKeyDown (visible isGroup : Bool) (g : GroupState) (keyCode : ℕ) : GroupState :=
  if !visible || !showLeftOrRightSwitches isGroup g then g
  else if keyCode = KeyCodeLEFT then
    if 0 < currentPreviewIndex g then
      { g with current := g.keys.getD (currentPreviewIndex g - 1).toNat 0 }
    else g
  else if keyCode = KeyCodeRIGHT then
    if currentPreviewIndex g < previewGroupCount g - 1 then
      { g with current := g.keys.getD (currentPreviewIndex g + 1).toNat 0 }
    else g
  else g

/-- One group-navigation input: a key press (with the visibility and
group flags in force at that moment) or a click on a switch arrow. -/
inductive NavOp where
  | key (visible isGroup : Bool) (keyCode : ℕ)
  | clickLeft
  | clickRight
deriving DecidableEq

/-- Run one navigation input through the corresponding handler. -/
def navStep (g : GroupState) : NavOp → GroupState
  | .key v p c => onKeyDown v p g c
  | .clickLeft => onSwitchLeft g
  | .clickRight => onSwitchRight g

/-- One state-mutating event of the Preview component, with the values the
handler reads from the event. -/
inductive PreviewOp where
  | dispatchZoom (ratio : ℚ) (wheel : Bool) (centerX centerY : Option ℚ)
  | zoomIn (wheel : Bool)
  | zoomOut (wheel : Bool)
  | rotateRight
  | rotateLeft
  | flipX
  | flipY
  | doubleClick
  | afterClose
  | mouseDown (button : ℕ) (pageX pageY : ℚ)
  | mouseMove (pageX pageY : ℚ)
  | mouseUp (fixState : Option Pos)

/-- Dispatch one event to its handler, under the environment (geometry,
bounds, visibility) in force when the event fires. -/
def applyOp (env : Env) (s : PreviewState) : PreviewOp → PreviewState
  | .dispatchZoom r w cx cy => dispatchZoomChange env s r w cx cy
  | .zoomIn w => onZoomIn env s w
  | .zoomOut w => onZoomOut env s w
  | .rotateRight => onRotateRight s
  | .rotateLeft => onRotateLeft s
  | .flipX => onFlipX s
  | .flipY => onFlipY s
  | .doubleClick => onDoubleClick env s
  | .afterClose => onAfterClose s
  | .mouseDown b px py => onMouseDown s b px py
  | .mouseMove px py => onMouseMove env s px py
  | .mouseUp fix => onMouseUp env s fix

/-- A state reached from `initialState` by a sequence of events, each
under its own environment (geometry is queried live, so it may change
between events). -/
def runOps (l : List (Env × PreviewOp)) : PreviewState :=
  l.foldl (fun s p => applyOp p.1 s p.2) initialState

/-! ## Helper lemmas about the zoom dispatch -/

theorem dispatchZoomChange_none (env : Env) (s : PreviewState) (ratio : ℚ)
    (w : Bool) (cx cy : Option ℚ) (h : env.imgElement = none) :
    dispatchZoomChange env s ratio w cx cy = s := by
  unfold dispatchZoomChange
  rw [h]

theorem dispatchZoomChange_some (env : Env) (s : PreviewState) (ratio : ℚ)
    (w : Bool) (cx cy : Option ℚ) (img : Geometry)
    (h : env.imgElement = some img) :
    dispatchZoomChange env s ratio w cx cy = zoomBody env s ratio w cx cy img := by
  unfold dispatchZoomChange
  rw [h]

/-- The shrink-to-fit snap condition of `dispatchZoomChange` (the nested
`ratio < 1 && newScale === 1` and fits-in-window checks, combined). -/
def snapCond (env : Env) (s : PreviewState) (ratio : ℚ) (img : Geometry) : Prop :=
  ratio < 1 ∧ newScaleOf env s.scale ratio = 1 ∧
    img.offsetWidth * newScaleOf env s.scale ratio ≤ env.innerWidth ∧
    img.offsetHeight * newScaleOf env s.scale ratio ≤ env.innerHeight

instance (env : Env) (s : PreviewState) (ratio : ℚ) (img : Geometry) :
    Decidable (snapCond env s ratio img) := by
  unfold snapCond
  infer_instance

theorem zoomBody_snap (env : Env) (s : PreviewState) (ratio : ℚ) (w : Bool)
    (cx cy : Option ℚ) (img : Geometry) (h : snapCond env s ratio img) :
    zoomBody env s ratio w cx cy img =
      { s with
        scale := newScaleOf env s.scale ratio
        position := ⟨0, 0⟩
        hasWheelZoomed := if w then s.hasWheelZoomed else false
        lastZoomPosition := if w then s.lastZoomPosition else ⟨0, 0⟩ } := by
  simp only [zoomBody]
  unfold snapCond at h
  rw [if_pos h]

theorem zoomBody_nonsnap (env : Env) (s : PreviewState) (ratio : ℚ) (w : Bool)
    (cx cy : Option ℚ) (img : Geometry) (h : ¬ snapCond env s ratio img) :
    zoomBody env s ratio w cx cy img =
      { s with
        scale := newScaleOf env s.scale ratio
        position :=
          ⟨s.position.x -
              ((newRatioOf env s.scale ratio - 1) *
                  (cx.getD (env.innerWidth / 2) - s.position.x - img.offsetLeft) -
                (newRatioOf env s.scale ratio - 1) * img.offsetWidth * (1 / 2)),
            s.position.y -
              ((newRatioOf env s.scale ratio - 1) *
                  (cy.getD (env.innerHeight / 2) - s.position.y - img.offsetTop) -
                (newRatioOf env s.scale ratio - 1) * img.offsetHeight * (1 / 2))⟩ } := by
  simp only [zoomBody]
  unfold snapCond at h
  rw [if_neg h]

theorem zoomBody_scale (env : Env) (s : PreviewState) (ratio : ℚ) (w : Bool)
    (cx cy : Option ℚ) (img : Geometry) :
    (zoomBody env s ratio w cx cy img).scale = newScaleOf env s.scale ratio := by
  by_cases h : snapCond env s ratio img
  · rw [zoomBody_snap env s ratio w cx cy img h]
  · rw [zoomBody_nonsnap env s ratio w cx cy img h]

theorem zoomBody_rotate (env : Env) (s : PreviewState) (ratio : ℚ) (w : Bool)
    (cx cy : Option ℚ) (img : Geometry) :
    (zoomBody env s ratio w cx cy img).rotate = s.rotate := by
  by_cases h : snapCond env s ratio img
  · rw [zoomBody_snap env s ratio w cx cy img h]
  · rw [zoomBody_nonsnap env s ratio w cx cy img h]

theorem zoomBody_flip (env : Env) (s : PreviewState) (ratio : ℚ) (w : Bool)
    (cx cy : Option ℚ) (img : Geometry) :
    (zoomBody env s ratio w cx cy img).flip = s.flip := by
  by_cases h : snapCond env s ratio img
  · rw [zoomBody_snap env s ratio w cx cy img h]
  · rw [zoomBody_nonsnap env s ratio w cx cy img h]

theorem zoomBody_mousePosition (env : Env) (s : PreviewState) (ratio : ℚ) (w : Bool)
    (cx cy : Option ℚ) (img : Geometry) :
    (zoomBody env s ratio w cx cy img).mousePosition = s.mousePosition := by
  by_cases h : snapCond env s ratio img
  · rw [zoomBody_snap env s ratio w cx cy img h]
  · rw [zoomBody_nonsnap env s ratio w cx cy img h]

theorem dispatchZoomChange_rotate (env : Env) (s : PreviewState) (ratio : ℚ)
    (w : Bool) (cx cy : Option ℚ) :
    (dispatchZoomChange env s ratio w cx cy).rotate = s.rotate := by
  unfold dispatchZoomChange
  cases h : env.imgElement with
  | none => rfl
  | some img => exact zoomBody_rotate env s ratio w cx cy img

/-- The clamping chain at the top of `dispatchZoomChange` is exactly a
clamp of `oldScale * ratio` into `[minScale, maxScale]`. -/
theorem newScaleOf_eq_clamp (env : Env) (oldScale ratio : ℚ)
    (hmm : env.minScale ≤ env.maxScale) :
    newScaleOf env oldScale ratio =
      max env.minScale (min env.maxScale (oldScale * ratio)) := by
  unfold newScaleOf
  split_ifs with h1 h2
  · rw [min_eq_left (le_of_lt h1), max_eq_right hmm]
  · rw [min_eq_right (le_of_lt (lt_of_lt_of_le h2 hmm)), max_eq_left (le_of_lt h2)]
  · rw [min_eq_right (not_lt.1 h1), max_eq_right (not_lt.1 h2)]

/-- The recomputed effective ratio is exactly `newScale / oldScale`. -/
theorem newRatioOf_eq_div (env : Env) (oldScale ratio : ℚ) (h : oldScale ≠ 0) :
    newRatioOf env oldScale ratio = newScaleOf env oldScale ratio / oldScale := by
  unfold newRatioOf newScaleOf
  split_ifs
  · rfl
  · rfl
  · rw [mul_comm, mul_div_assoc, div_self h, mul_one]

/-! ## C3: zoom-out at the minimum scale -/

/-- C3: a `zoomOut` call (wheel- or button-originated) while
`scale == minScale` leaves scale, position, rotation and flip unchanged
and only resets the wheel-zoom memory (`hasWheelZoomed := false`, stored
focal point `(0, 0)`). -/
theorem zoomOut_at_minScale_resets_memory_only (env : Env) (s : PreviewState)
    (h : s.scale = env.minScale) (wheel : Bool) :
    onZoomOut env s wheel =
      { s with hasWheelZoomed := false, lastZoomPosition := ⟨0, 0⟩ } := by
  unfold onZoomOut
  rw [if_pos (le_of_eq h)]

/-- Witness for C3 at a concrete state and environment. -/
theorem zoomOut_at_minScale_resets_memory_only_witness :
    initialState.scale = (⟨1, 50, 1000, 800, none, true⟩ : Env).minScale ∧
    onZoomOut ⟨1, 50, 1000, 800, none, true⟩ initialState false =
      { initialState with hasWheelZoomed := false, lastZoomPosition := ⟨0, 0⟩ } :=
  ⟨rfl, zoomOut_at_minScale_resets_memory_only ⟨1, 50, 1000, 800, none, true⟩
    initialState rfl false⟩

/-! ## C4: rotation handlers -/

/-- C4 counterexample: the claim has the directions swapped — in the code
`onRotateLeft` subtracts 90 and `onRotateRight` adds 90, so at the initial
state the claimed "rotateLeft adds 90, rotateRight subtracts 90" is
false. -/
theorem rotate_direction_counterexample :
    ¬ ((onRotateLeft initialState).rotate = initialState.rotate + 90 ∧
       (onRotateRight initialState).rotate = initialState.rotate - 90) := by
  decide

/-- C4 (amended): `onRotateRight` adds 90 degrees and `onRotateLeft`
subtracts 90 degrees, accumulating without any wraparound, and neither
changes any other field (in particular scale, position and flip). -/
theorem rotate_handlers_step_by_90 (s : PreviewState) :
    onRotateRight s = { s with rotate := s.rotate + 90 } ∧
    onRotateLeft s = { s with rotate := s.rotate - 90 } :=
  ⟨rfl, rfl⟩

/-! ## C5: double-click reset -/

/-- C5: while visible, a double click resets scale to 1 and position to
the origin and touches nothing else (in particular rotation and flip);
while not visible it changes nothing. -/
theorem doubleClick_resets_scale_and_position (env : Env) (s : PreviewState) :
    (env.visible = true →
      onDoubleClick env s = { s with scale := 1, position := initialPosition }) ∧
    (env.visible = false → onDoubleClick env s = s) := by
  constructor
  · intro h
    unfold onDoubleClick
    rw [h]
    simp only [if_true]
    split_ifs with h1 h2 h2 <;>
      · ext <;> simp_all [initialPosition]
  · intro h
    unfold onDoubleClick
    rw [h]
    simp

/-- Witness for C5 at a concrete visible environment and state. -/
theorem doubleClick_resets_scale_and_position_witness :
    (⟨1, 50, 1000, 800, none, true⟩ : Env).visible = true ∧
    onDoubleClick ⟨1, 50, 1000, 800, none, true⟩
        { initialState with scale := 7, position := ⟨3, 4⟩, rotate := 90 } =
      { ({ initialState with scale := 7, position := ⟨3, 4⟩, rotate := 90 } :
          PreviewState) with scale := 1, position := initialPosition } :=
  ⟨rfl, (doubleClick_resets_scale_and_position ⟨1, 50, 1000, 800, none, true⟩
    { initialState with scale := 7, position := ⟨3, 4⟩, rotate := 90 }).1 rfl⟩

/-! ## C6: after-close reset -/

/-- C6: after the modal's after-close event the whole view transform is
back at its defaults (`scale = 1`, `rotate = 0`, `flip = {1, 1}`,
`position = (0, 0)`) and the wheel-zoom memory is cleared, whatever the
state before closing. -/
theorem afterClose_resets_transform_and_memory (s : PreviewState) :
    (onAfterClose s).scale = 1 ∧ (onAfterClose s).rotate = 0 ∧
    (onAfterClose s).flip = ⟨1, 1⟩ ∧ (onAfterClose s).position = ⟨0, 0⟩ ∧
    (onAfterClose s).hasWheelZoomed = false ∧
    (onAfterClose s).lastZoomPosition = ⟨0, 0⟩ :=
  ⟨rfl, rfl, rfl, rfl, rfl, rfl⟩

/-! ## C10: flip handlers -/

/-- C10: `onFlipX` and `onFlipY` are involutions, each negates only its
own flip sign (so a sign in `{1, -1}` stays in `{1, -1}`) and leaves
scale, rotation, position and the other flip axis unchanged. -/
theorem flip_handlers_involutive (s : PreviewState) :
    onFlipX (onFlipX s) = s ∧ onFlipY (onFlipY s) = s ∧
    (onFlipX s).flip.x = -s.flip.x ∧ (onFlipX s).flip.y = s.flip.y ∧
    (onFlipX s).scale = s.scale ∧ (onFlipX s).rotate = s.rotate ∧
    (onFlipX s).position = s.position ∧
    (onFlipY s).flip.y = -s.flip.y ∧ (onFlipY s).flip.x = s.flip.x ∧
    (onFlipY s).scale = s.scale ∧ (onFlipY s).rotate = s.rotate ∧
    (onFlipY s).position = s.position ∧
    ((s.flip.x = 1 ∨ s.flip.x = -1) →
      ((onFlipX s).flip.x = 1 ∨ (onFlipX s).flip.x = -1)) ∧
    ((s.flip.y = 1 ∨ s.flip.y = -1) →
      ((onFlipY s).flip.y = 1 ∨ (onFlipY s).flip.y = -1)) := by
  refine ⟨?_, ?_, rfl, rfl, rfl, rfl, rfl, rfl, rfl, rfl, rfl, rfl, ?_, ?_⟩
  · ext <;> simp [onFlipX]
  · ext <;> simp [onFlipY]
  · rintro (h | h) <;> simp [onFlipX, h]
  · rintro (h | h) <;> simp [onFlipY, h]

/-- Witness for C10's sign-preservation implication at the initial
state. -/
theorem flip_handlers_involutive_witness :
    (initialState.flip.x = 1 ∨ initialState.flip.x = -1) ∧
    ((onFlipX initialState).flip.x = 1 ∨ (onFlipX initialState).flip.x = -1) := by
  have h := flip_handlers_involutive initialState
  exact ⟨Or.inl rfl, h.2.2.2.2.2.2.2.2.2.2.2.2.1 (Or.inl rfl)⟩

/-! ## C8: zoom with no mounted geometry -/

/-- C8 counterexample: with no image element mounted, a wheel `zoomIn`
still flips `hasWheelZoomed` to `true`, so "every zoom operation leaves
WheelZoomMemory unchanged" is false as stated. -/
theorem zoom_no_geometry_counterexample :
    (⟨1, 50, 1000, 800, none, true⟩ : Env).imgElement = none ∧
    (onZoomIn ⟨1, 50, 1000, 800, none, true⟩ initialState true).hasWheelZoomed ≠
      initialState.hasWheelZoomed := by
  refine ⟨rfl, ?_⟩
  decide

/-- C8 (amended): with no mounted geometry `dispatchZoomChange` is a
complete silent no-op, and `onZoomIn`/`onZoomOut` leave scale, position,
rotation and flip unchanged — though they may still touch the wheel-zoom
memory (wheel zooms record the pointer; zoom-out at `minScale` clears
it). -/
theorem zoom_without_geometry_preserves_transform (env : Env) (s : PreviewState)
    (h : env.imgElement = none) (ratio : ℚ) (w : Bool) (cx cy : Option ℚ) :
    dispatchZoomChange env s ratio w cx cy = s ∧
    (onZoomIn env s w).scale = s.scale ∧ (onZoomIn env s w).position = s.position ∧
    (onZoomIn env s w).rotate = s.rotate ∧ (onZoomIn env s w).flip = s.flip ∧
    (onZoomOut env s w).scale = s.scale ∧ (onZoomOut env s w).position = s.position ∧
    (onZoomOut env s w).rotate = s.rotate ∧ (onZoomOut env s w).flip = s.flip := by
  have hd : ∀ r w' cx' cy', dispatchZoomChange env s r w' cx' cy' = s :=
    fun r w' cx' cy' => dispatchZoomChange_none env s r w' cx' cy' h
  refine ⟨hd ratio w cx cy, ?_⟩
  unfold onZoomIn onZoomOut
  split_ifs <;> simp [hd]

/-- Witness for C8's amended statement at a concrete environment. -/
theorem zoom_without_geometry_preserves_transform_witness :
    (⟨1, 50, 1000, 800, none, true⟩ : Env).imgElement = none ∧
    dispatchZoomChange ⟨1, 50, 1000, 800, none, true⟩ initialState 2 false none none
      = initialState :=
  ⟨rfl, (zoom_without_geometry_preserves_transform ⟨1, 50, 1000, 800, none, true⟩
    initialState rfl 2 false none none).1⟩

/-! ## C2: shrink-to-fit snap to the origin -/

/-- C2: when the image is mounted, the requested ratio is below 1, the
clamped new scale is exactly 1 and the unscaled box fits in the window,
the zoom commits position `(0, 0)`; the wheel-zoom memory is cleared
exactly when the zoom was not wheel-originated, and is left untouched
when it was. -/
theorem shrink_to_fit_snaps_to_origin (env : Env) (s : PreviewState)
    (img : Geometry) (himg : env.imgElement = some img) (ratio : ℚ) (w : Bool)
    (cx cy : Option ℚ) (hr : ratio < 1) (hs : newScaleOf env s.scale ratio = 1)
    (hw : img.offsetWidth ≤ env.innerWidth)
    (hh : img.offsetHeight ≤ env.innerHeight) :
    (dispatchZoomChange env s ratio w cx cy).scale = 1 ∧
    (dispatchZoomChange env s ratio w cx cy).position = ⟨0, 0⟩ ∧
    (dispatchZoomChange env s ratio w cx cy).hasWheelZoomed =
      (if w then s.hasWheelZoomed else false) ∧
    (dispatchZoomChange env s ratio w cx cy).lastZoomPosition =
      (if w then s.lastZoomPosition else ⟨0, 0⟩) := by
  have hcond : snapCond env s ratio img := by
    refine ⟨hr, hs, ?_, ?_⟩ <;> rw [hs, mul_one] <;> assumption
  rw [dispatchZoomChange_some env s ratio w cx cy img himg,
    zoomBody_snap env s ratio w cx cy img hcond]
  exact ⟨hs, rfl, rfl, rfl⟩

/-- Witness for C2: shrinking from scale 2 by ratio 2/5 clamps to scale 1
and, with a 100×100 image in a 1000×800 window, snaps to the origin. -/
theorem shrink_to_fit_snaps_to_origin_witness :
    ((2 : ℚ) / 5 < 1 ∧
      newScaleOf ⟨1, 50, 1000, 800, some ⟨100, 100, 0, 0⟩, true⟩
        (⟨2, 0, ⟨1, 1⟩, ⟨0, 0⟩, ⟨0, 0⟩, false, ⟨0, 0⟩, false, ⟨0, 0, 0, 0⟩⟩ :
          PreviewState).scale (2 / 5) = 1 ∧
      (100 : ℚ) ≤ 1000 ∧ (100 : ℚ) ≤ 800) ∧
    (dispatchZoomChange ⟨1, 50, 1000, 800, some ⟨100, 100, 0, 0⟩, true⟩
        ⟨2, 0, ⟨1, 1⟩, ⟨0, 0⟩, ⟨0, 0⟩, false, ⟨0, 0⟩, false, ⟨0, 0, 0, 0⟩⟩
        (2 / 5) false none none).position = ⟨0, 0⟩ :=
  ⟨⟨by norm_num, by norm_num [newScaleOf], by norm_num, by norm_num⟩,
    (shrink_to_fit_snaps_to_origin ⟨1, 50, 1000, 800, some ⟨100, 100, 0, 0⟩, true⟩
      ⟨2, 0, ⟨1, 1⟩, ⟨0, 0⟩, ⟨0, 0⟩, false, ⟨0, 0⟩, false, ⟨0, 0, 0, 0⟩⟩
      ⟨100, 100, 0, 0⟩ rfl (2 / 5) false none none
      (by norm_num) (by norm_num [newScaleOf]) (by norm_num) (by norm_num)).2.1⟩

/-! ## C1: zoom scale clamping and the zoom-toward-point position -/

/-- C1 counterexample: shrinking from scale 2 by the requested ratio 2/5
clamps the scale to 1 (so clamping occurs), but the committed position is
the snapped origin, not the value of the effective-ratio position formula
(which gives `x = 225` here). -/
theorem zoom_position_formula_counterexample :
    (dispatchZoomChange ⟨1, 50, 1000, 800, some ⟨100, 100, 0, 0⟩, true⟩
        ⟨2, 0, ⟨1, 1⟩, ⟨0, 0⟩, ⟨0, 0⟩, false, ⟨0, 0⟩, false, ⟨0, 0, 0, 0⟩⟩
        (2 / 5) false none none).scale ≠
      (⟨2, 0, ⟨1, 1⟩, ⟨0, 0⟩, ⟨0, 0⟩, false, ⟨0, 0⟩, false, ⟨0, 0, 0, 0⟩⟩ :
        PreviewState).scale * (2 / 5) ∧
    ¬ ((dispatchZoomChange ⟨1, 50, 1000, 800, some ⟨100, 100, 0, 0⟩, true⟩
          ⟨2, 0, ⟨1, 1⟩, ⟨0, 0⟩, ⟨0, 0⟩, false, ⟨0, 0⟩, false, ⟨0, 0, 0, 0⟩⟩
          (2 / 5) false none none).position.x =
        (⟨2, 0, ⟨1, 1⟩, ⟨0, 0⟩, ⟨0, 0⟩, false, ⟨0, 0⟩, false, ⟨0, 0, 0, 0⟩⟩ :
          PreviewState).position.x -
          ((dispatchZoomChange ⟨1, 50, 1000, 800, some ⟨100, 100, 0, 0⟩, true⟩
              ⟨2, 0, ⟨1, 1⟩, ⟨0, 0⟩, ⟨0, 0⟩, false, ⟨0, 0⟩, false, ⟨0, 0, 0, 0⟩⟩
              (2 / 5) false none none).scale /
            (⟨2, 0, ⟨1, 1⟩, ⟨0, 0⟩, ⟨0, 0⟩, false, ⟨0, 0⟩, false, ⟨0, 0, 0, 0⟩⟩ :
              PreviewState).scale - 1) *
            ((1000 / 2 -
                (⟨2, 0, ⟨1, 1⟩, ⟨0, 0⟩, ⟨0, 0⟩, false, ⟨0, 0⟩, false,
                  ⟨0, 0, 0, 0⟩⟩ : PreviewState).position.x - 0) -
              100 / 2)) := by
  have hev : dispatchZoomChange ⟨1, 50, 1000, 800, some ⟨100, 100, 0, 0⟩, true⟩
      ⟨2, 0, ⟨1, 1⟩, ⟨0, 0⟩, ⟨0, 0⟩, false, ⟨0, 0⟩, false, ⟨0, 0, 0, 0⟩⟩
      (2 / 5) false none none =
      ⟨1, 0, ⟨1, 1⟩, ⟨0, 0⟩, ⟨0, 0⟩, false, ⟨0, 0⟩, false, ⟨0, 0, 0, 0⟩⟩ := by
    rw [dispatchZoomChange_some _ _ _ _ _ _ ⟨100, 100, 0, 0⟩ rfl,
      zoomBody_snap _ _ _ _ _ _ _ (by norm_num [snapCond, newScaleOf])]
    norm_num [newScaleOf]
  rw [hev]
  norm_num

/-- C1 (amended): with the image mounted, a positive current scale and
`minScale ≤ maxScale`, the committed scale is exactly
`clamp(scale · ratio, minScale, maxScale)` and so lies in
`[minScale, maxScale]`; the committed position comes from the effective
ratio `newScale / oldScale` (not the requested ratio) with the focal point
defaulting to the window center — except when the shrink-to-fit snap
condition holds, in which case the position is `(0, 0)`. -/
theorem zoom_clamp_and_effective_ratio (env : Env) (s : PreviewState)
    (img : Geometry) (himg : env.imgElement = some img) (hpos : 0 < s.scale)
    (hmm : env.minScale ≤ env.maxScale) (ratio : ℚ) (w : Bool)
    (cx cy : Option ℚ) :
    (dispatchZoomChange env s ratio w cx cy).scale =
      max env.minScale (min env.maxScale (s.scale * ratio)) ∧
    env.minScale ≤ (dispatchZoomChange env s ratio w cx cy).scale ∧
    (dispatchZoomChange env s ratio w cx cy).scale ≤ env.maxScale ∧
    (¬ snapCond env s ratio img →
      (dispatchZoomChange env s ratio w cx cy).position.x =
        s.position.x -
          ((dispatchZoomChange env s ratio w cx cy).scale / s.scale - 1) *
            ((cx.getD (env.innerWidth / 2) - s.position.x - img.offsetLeft) -
              img.offsetWidth / 2) ∧
      (dispatchZoomChange env s ratio w cx cy).position.y =
        s.position.y -
          ((dispatchZoomChange env s ratio w cx cy).scale / s.scale - 1) *
            ((cy.getD (env.innerHeight / 2) - s.position.y - img.offsetTop) -
              img.offsetHeight / 2)) ∧
    (snapCond env s ratio img →
      (dispatchZoomChange env s ratio w cx cy).position = ⟨0, 0⟩) := by
  rw [dispatchZoomChange_some env s ratio w cx cy img himg]
  have hsc := zoomBody_scale env s ratio w cx cy img
  have hclamp := newScaleOf_eq_clamp env s.scale ratio hmm
  have hratio := newRatioOf_eq_div env s.scale ratio (ne_of_gt hpos)
  refine ⟨hsc.trans hclamp, ?_, ?_, ?_, ?_⟩
  · rw [hsc, hclamp]
    exact le_max_left _ _
  · rw [hsc, hclamp]
    exact max_le hmm (min_le_left _ _)
  · intro hns
    rw [zoomBody_nonsnap env s ratio w cx cy img hns]
    simp only [hratio, hsc]
    constructor <;> ring
  · intro hsnap
    rw [zoomBody_snap env s ratio w cx cy img hsnap]

/-- Witness for C1's amended theorem: a button zoom-in by ratio 3 from the
initial state lands on scale 3, the clamp of `1 · 3` into `[1, 50]`. -/
theorem zoom_clamp_and_effective_ratio_witness :
    ((⟨1, 50, 1000, 800, some ⟨100, 100, 0, 0⟩, true⟩ : Env).imgElement =
        some ⟨100, 100, 0, 0⟩ ∧
      (0 : ℚ) < initialState.scale ∧
      (⟨1, 50, 1000, 800, some ⟨100, 100, 0, 0⟩, true⟩ : Env).minScale ≤
        (⟨1, 50, 1000, 800, some ⟨100, 100, 0, 0⟩, true⟩ : Env).maxScale) ∧
    (dispatchZoomChange ⟨1, 50, 1000, 800, some ⟨100, 100, 0, 0⟩, true⟩
        initialState 3 false none none).scale =
      max (⟨1, 50, 1000, 800, some ⟨100, 100, 0, 0⟩, true⟩ : Env).minScale
        (min (⟨1, 50, 1000, 800, some ⟨100, 100, 0, 0⟩, true⟩ : Env).maxScale
          (initialState.scale * 3)) :=
  ⟨⟨rfl, by norm_num [initialState], by norm_num⟩,
    (zoom_clamp_and_effective_ratio ⟨1, 50, 1000, 800, some ⟨100, 100, 0, 0⟩, true⟩
      initialState ⟨100, 100, 0, 0⟩ rfl (by norm_num [initialState]) (by norm_num)
      3 false none none).1⟩

/-! ## Helper lemmas about `jsIndexOf` and group navigation -/

theorem jsIndexOf_of_not_mem : ∀ {l : List ℕ} {a : ℕ}, a ∉ l → jsIndexOf a l = -1
  | [], _, _ => rfl
  | b :: l, a, h => by
    have hb : ¬ b = a := fun e => h (e ▸ List.mem_cons_self b l)
    have ht : a ∉ l := fun m => h (List.mem_cons_of_mem b m)
    simp only [jsIndexOf, if_neg hb, jsIndexOf_of_not_mem ht]
    simp

theorem jsIndexOf_mem_bounds : ∀ {l : List ℕ} {a : ℕ}, a ∈ l →
    0 ≤ jsIndexOf a l ∧ jsIndexOf a l < l.length
  | b :: l, a, h => by
    by_cases hb : b = a
    · simp [jsIndexOf, hb]
    · have ht : a ∈ l := by
        rcases List.mem_cons.1 h with h1 | h1
        · exact absurd h1.symm hb
        · exact h1
      have ih := jsIndexOf_mem_bounds ht
      have hne : jsIndexOf a l ≠ -1 := by omega
      simp only [jsIndexOf, if_neg hb, if_neg hne, List.length_cons]
      push_cast
      omega

theorem jsIndexOf_getElem : ∀ (l : List ℕ), l.Nodup → ∀ (i : ℕ) (hi : i < l.length),
    jsIndexOf l[i] l = (i : ℤ)
  | [], _, i, hi => absurd hi (by simp)
  | b :: t, hnd, 0, hi => by simp [jsIndexOf]
  | b :: t, hnd, j + 1, hi => by
    have hb : b ∉ t := (List.nodup_cons.1 hnd).1
    have hndt : t.Nodup := (List.nodup_cons.1 hnd).2
    have hj : j < t.length := by
      simpa [List.length_cons] using hi
    have hmem : t[j] ∈ t := List.getElem_mem hj
    have hne : ¬ b = t[j] := fun e => hb (e ▸ hmem)
    have hnn := (jsIndexOf_mem_bounds hmem).1
    have ih := jsIndexOf_getElem t hndt j hj
    simp only [List.getElem_cons_succ, jsIndexOf, if_neg hne, ih]
    rw [if_neg (by omega : (j : ℤ) ≠ -1)]
    push_cast
    ring

theorem currentPreviewIndex_lt {g : GroupState} (h : g.current ∈ g.keys) :
    0 ≤ currentPreviewIndex g ∧ currentPreviewIndex g < previewGroupCount g := by
  have := jsIndexOf_mem_bounds h
  unfold currentPreviewIndex previewGroupCount
  omega

theorem keys_getD_mem (g : GroupState) {n : ℤ} (h0 : 0 ≤ n)
    (hlt : n < previewGroupCount g) : g.keys.getD n.toNat 0 ∈ g.keys := by
  have hn : n.toNat < g.keys.length := by
    unfold previewGroupCount at hlt
    omega
  rw [List.getD_eq_getElem _ _ hn]
  exact List.getElem_mem hn

theorem currentPreviewIndex_getD (g : GroupState) (hnd : g.keys.Nodup) {n : ℤ}
    (h0 : 0 ≤ n) (hlt : n < previewGroupCount g) :
    currentPreviewIndex { g with current := g.keys.getD n.toNat 0 } = n := by
  have hn : n.toNat < g.keys.length := by
    unfold previewGroupCount at hlt
    omega
  unfold currentPreviewIndex
  rw [List.getD_eq_getElem _ _ hn]
  rw [jsIndexOf_getElem g.keys hnd n.toNat hn]
  omega

theorem navStep_keys (g : GroupState) (op : NavOp) : (navStep g op).keys = g.keys := by
  cases op with
  | key v p c =>
    simp only [navStep]
    unfold onKeyDown
    split_ifs <;> rfl
  | clickLeft =>
    simp only [navStep]
    unfold onSwitchLeft
    split_ifs <;> rfl
  | clickRight =>
    simp only [navStep]
    unfold onSwitchRight
    split_ifs <;> rfl

theorem navStep_current_mem {g : GroupState} (h : g.current ∈ g.keys) (op : NavOp) :
    (navStep g op).current ∈ g.keys := by
  have hb := currentPreviewIndex_lt h
  cases op with
  | key v p c =>
    simp only [navStep]
    unfold onKeyDown
    split_ifs with h1 h2 h3 h4 h5
    · exact h
    · exact keys_getD_mem g (by omega) (by omega)
    · exact h
    · exact keys_getD_mem g (by omega) (by omega)
    · exact h
    · exact h
  | clickLeft =>
    simp only [navStep]
    unfold onSwitchLeft
    split_ifs with h1
    · exact keys_getD_mem g (by omega) (by omega)
    · exact h
  | clickRight =>
    simp only [navStep]
    unfold onSwitchRight
    split_ifs with h1
    · exact keys_getD_mem g (by omega) (by omega)
    · exact h

theorem navFold_mem : ∀ (l : List NavOp) (g : GroupState), g.current ∈ g.keys →
    (l.foldl navStep g).current ∈ (l.foldl navStep g).keys ∧
      (l.foldl navStep g).keys = g.keys
  | [], g, h => ⟨h, rfl⟩
  | op :: l, g, h => by
    have h1 : (navStep g op).current ∈ (navStep g op).keys := by
      rw [navStep_keys g op]
      exact navStep_current_mem h op
    have ih := navFold_mem l (navStep g op) h1
    refine ⟨by simpa using ih.1, ?_⟩
    rw [List.foldl_cons, ih.2, navStep_keys g op]

theorem onKeyDown_left_eq (g : GroupState) (hc : 1 < previewGroupCount g) :
    onKeyDown true true g KeyCodeLEFT = onSwitchLeft g := by
  unfold onKeyDown onSwitchLeft showLeftOrRightSwitches
  simp [hc]

theorem onKeyDown_right_eq (g : GroupState) (hc : 1 < previewGroupCount g) :
    onKeyDown true true g KeyCodeRIGHT = onSwitchRight g := by
  unfold onKeyDown onSwitchRight showLeftOrRightSwitches KeyCodeLEFT KeyCodeRIGHT
  simp [hc]

/-! ## C7: group navigation bounds -/

/-- C7: starting from a valid group state (distinct keys, current key
present), every sequence of key presses and switch clicks keeps
`currentPreviewIndex` inside `[0, previewGroupCount - 1]`; switch-left
steps the index down exactly when it is positive and is a no-op at index
0 (symmetrically for switch-right at the last index); the keyboard
handlers move the same way but only while visible on a preview group with
more than one item, and any key other than left/right changes nothing. -/
theorem group_navigation_bounds (g : GroupState) (hnd : g.keys.Nodup)
    (hmem : g.current ∈ g.keys) :
    (∀ l : List NavOp, 0 ≤ currentPreviewIndex (l.foldl navStep g) ∧
      currentPreviewIndex (l.foldl navStep g) ≤ previewGroupCount g - 1) ∧
    (0 < currentPreviewIndex g →
      currentPreviewIndex (onSwitchLeft g) = currentPreviewIndex g - 1) ∧
    (currentPreviewIndex g = 0 → onSwitchLeft g = g) ∧
    (currentPreviewIndex g < previewGroupCount g - 1 →
      currentPreviewIndex (onSwitchRight g) = currentPreviewIndex g + 1) ∧
    (currentPreviewIndex g = previewGroupCount g - 1 → onSwitchRight g = g) ∧
    (1 < previewGroupCount g → 0 < currentPreviewIndex g →
      currentPreviewIndex (onKeyDown true true g KeyCodeLEFT) =
        currentPreviewIndex g - 1) ∧
    (1 < previewGroupCount g → currentPreviewIndex g < previewGroupCount g - 1 →
      currentPreviewIndex (onKeyDown true true g KeyCodeRIGHT) =
        currentPreviewIndex g + 1) ∧
    (∀ p c, onKeyDown false p g c = g) ∧
    (∀ v c, onKeyDown v false g c = g) ∧
    (previewGroupCount g ≤ 1 → ∀ v p c, onKeyDown v p g c = g) ∧
    (∀ v p c, c ≠ KeyCodeLEFT → c ≠ KeyCodeRIGHT → onKeyDown v p g c = g) := by
  have hb := currentPreviewIndex_lt hmem
  refine ⟨?_, ?_, ?_, ?_, ?_, ?_, ?_, ?_, ?_, ?_, ?_⟩
  · intro l
    obtain ⟨hm, hk⟩ := navFold_mem l g hmem
    have hbf := currentPreviewIndex_lt hm
    unfold previewGroupCount at hbf ⊢
    rw [hk] at hbf
    omega
  · intro hpos
    unfold onSwitchLeft
    rw [if_pos hpos]
    exact currentPreviewIndex_getD g hnd (by omega) (by omega)
  · intro h0
    unfold onSwitchLeft
    rw [if_neg (by omega)]
  · intro hlt
    unfold onSwitchRight
    rw [if_pos hlt]
    exact currentPreviewIndex_getD g hnd (by omega) (by omega)
  · intro hlast
    unfold onSwitchRight
    rw [if_neg (by omega)]
  · intro hc hpos
    rw [onKeyDown_left_eq g hc]
    unfold onSwitchLeft
    rw [if_pos hpos]
    exact currentPreviewIndex_getD g hnd (by omega) (by omega)
  · intro hc hlt
    rw [onKeyDown_right_eq g hc]
    unfold onSwitchRight
    rw [if_pos hlt]
    exact currentPreviewIndex_getD g hnd (by omega) (by omega)
  · intro p c
    unfold onKeyDown
    simp
  · intro v c
    unfold onKeyDown showLeftOrRightSwitches
    simp
  · intro hle v p c
    unfold onKeyDown showLeftOrRightSwitches
    have hdec : decide (1 < previewGroupCount g) = false := by
      simp only [decide_eq_false_iff_not, not_lt]
      omega
    simp [hdec]
  · intro v p c hL hR
    unfold onKeyDown
    rw [if_neg hL, if_neg hR, ite_self]

/-- Witness for C7 on the three-element group `[0, 1, 2]` at current key
`1`: switch-left moves the index from 1 to 0. -/
theorem group_navigation_bounds_witness :
    ([0, 1, 2] : List ℕ).Nodup ∧ (1 : ℕ) ∈ ([0, 1, 2] : List ℕ) ∧
    0 < currentPreviewIndex ⟨[0, 1, 2], 1⟩ ∧
    currentPreviewIndex (onSwitchLeft ⟨[0, 1, 2], 1⟩) =
      currentPreviewIndex ⟨[0, 1, 2], 1⟩ - 1 :=
  ⟨by decide, by decide, by decide,
    (group_navigation_bounds ⟨[0, 1, 2], 1⟩ (by decide) (by decide)).2.1
      (by decide)⟩

/-! ## C9: the rotation is always a multiple of 90 -/

theorem onZoomIn_rotate (env : Env) (s : PreviewState) (w : Bool) :
    (onZoomIn env s w).rotate = s.rotate := by
  unfold onZoomIn
  split_ifs <;> simp [dispatchZoomChange_rotate]

theorem onZoomOut_rotate (env : Env) (s : PreviewState) (w : Bool) :
    (onZoomOut env s w).rotate = s.rotate := by
  unfold onZoomOut
  split_ifs <;> simp [dispatchZoomChange_rotate]

/-- Each handler leaves the rotation unchanged, shifts it by exactly
±90, or resets it to 0. -/
theorem applyOp_rotate (env : Env) (s : PreviewState) (op : PreviewOp) :
    (applyOp env s op).rotate = s.rotate ∨
    (applyOp env s op).rotate = s.rotate + 90 ∨
    (applyOp env s op).rotate = s.rotate - 90 ∨
    (applyOp env s op).rotate = 0 := by
  cases op with
  | dispatchZoom r w cx cy => exact Or.inl (dispatchZoomChange_rotate env s r w cx cy)
  | zoomIn w => exact Or.inl (onZoomIn_rotate env s w)
  | zoomOut w => exact Or.inl (onZoomOut_rotate env s w)
  | rotateRight => exact Or.inr (Or.inl rfl)
  | rotateLeft => exact Or.inr (Or.inr (Or.inl rfl))
  | flipX => exact Or.inl rfl
  | flipY => exact Or.inl rfl
  | doubleClick =>
    left
    simp only [applyOp]
    unfold onDoubleClick
    by_cases hv : env.visible
    · by_cases hs : s.scale ≠ 1 <;>
        by_cases hp : s.position.x ≠ initialPosition.x ∨
          s.position.y ≠ initialPosition.y <;>
        simp [hv, hs, hp]
    · simp [hv]
  | afterClose => exact Or.inr (Or.inr (Or.inr rfl))
  | mouseDown b px py =>
    left
    simp only [applyOp]
    unfold onMouseDown
    split_ifs <;> rfl
  | mouseMove px py =>
    left
    simp only [applyOp]
    unfold onMouseMove updateMousePosition
    by_cases hm : (env.visible && s.isMoving) = true <;> simp [hm]
  | mouseUp fix =>
    left
    simp only [applyOp]
    unfold onMouseUp
    cases fix <;> split_ifs <;> rfl

/-- C9: in every state reachable from the initial state by any sequence
of events, the accumulated rotation is a multiple of 90 degrees: it
starts at 0 and each handler leaves it unchanged, shifts it by ±90, or
resets it to 0. -/
theorem rotate_always_multiple_of_90 (l : List (Env × PreviewOp)) :
    (runOps l).rotate % 90 = 0 := by
  suffices h : ∀ (l' : List (Env × PreviewOp)) (s : PreviewState),
      s.rotate % 90 = 0 →
      (l'.foldl (fun s' p => applyOp p.1 s' p.2) s).rotate % 90 = 0 by
    exact h l initialState (by decide)
  intro l'
  induction l' with
  | nil => exact fun s hs => hs
  | cons p t ih =>
    intro s hs
    rw [List.foldl_cons]
    apply ih
    rcases applyOp_rotate p.1 s p.2 with h | h | h | h <;> rw [h] <;> omega

end VcImagePreview
